import Mathlib

/-!
Verification of the authoritative simulation core of the Narwhale websocket
game server (`src/server.js`).

Modelling conventions:
* JavaScript numbers are modelled as real numbers (`ℝ`) for physics scalars.
  Quantities that are integers throughout the program (`Date.now()` results,
  dash charges, kill/death counters, byte values, colours, ids) are modelled
  as `ℤ` or `ℕ`: every source operation applied to them is integer valued.
* `Date.now()` is an explicit `now` parameter (milliseconds).
* `Math.random()` results are explicit parameters.
* The global room registry (`global.gameServer.rooms`) is replaced by passing
  the owning room's bounds explicitly.
* `Buffer` writes become lists of byte values (`List ℕ`); `writeFloatLE` is an
  abstract serialization parameter `f32 : ℝ → List ℕ` (IEEE-754 binary32 is a
  pure function of the value, which is all the statements below use).
-/

namespace Narwhale

/-- CONFIG.friction -/
def friction : ℝ := 0.95

/-- CONFIG.acceleration -/
def acceleration : ℝ := 200

/-- CONFIG.dashPower -/
def dashPower : ℝ := 300

/-- CONFIG.collisionDamage -/
def collisionDamage : ℝ := 100

/-- CONFIG.maxInputRate (inputs per second) -/
def maxInputRate : ℤ := 120

/-! ### InputValidator (server.js `class InputValidator`) -/

/-- One entry of `InputValidator.playerInputs`: `{count, lastReset}`. -/
structure RateEntry where
  count : ℤ
  lastReset : ℤ
deriving DecidableEq

/-- `InputValidator.validateInputRate(playerId)` for one connection.
`e` is the stored `playerInputs` entry for this connection (`none` before the
first call), `now` is `Date.now()`.  Returns the boolean result together with
the updated stored entry. -/
def validateInputRate (now : ℤ) (e : Option RateEntry) : Bool × RateEntry :=
  -- if (!this.playerInputs.has(playerId)) this.playerInputs.set(playerId, {count:0,lastReset:now});
  let d := match e with
    | none => { count := 0, lastReset := now : RateEntry }
    | some d => d
  -- if (now - d.lastReset > 1000) { d.count = 0; d.lastReset = now; }
  let d := if 1000 < now - d.lastReset then { count := 0, lastReset := now : RateEntry } else d
  -- d.count++;
  let d := { d with count := d.count + 1 }
  -- return d.count <= CONFIG.maxInputRate;
  (d.count ≤ maxInputRate, d)

/-- Run `validateInputRate` on a sequence of call times, threading the stored
entry, and collect the returned booleans. -/
def rateRun : List ℤ → Option RateEntry → List Bool × Option RateEntry
  | [], e => ([], e)
  | t :: ts, e =>
      let r := validateInputRate t e
      let rest := rateRun ts (some r.2)
      (r.1 :: rest.1, rest.2)

/-- `InputValidator.validateDash(player)` reads only `curDash` and
`lastDashTime` from the player; it is stated over those two values.
`lastDashTime` is falsy (i.e. skipped) exactly when it is `0`. -/
def validateDashRaw (now curDash lastDashTime : ℤ) : Bool :=
  if curDash ≤ 0 then false
  else if lastDashTime ≠ 0 ∧ now - lastDashTime < 100 then false
  else true

/-! ### Math library functions used by the source (modelled) -/

/-- `Math.atan2(y, x)` on ideal reals (standard library function, not repo
code): the angle of the vector `(x, y)` in `(-π, π]`, with the JavaScript
conventions for the axes and `atan2 0 0 = 0`. -/
noncomputable def atan2 (y x : ℝ) : ℝ :=
  if 0 < x then Real.arctan (y / x)
  else if x < 0 then
    (if 0 ≤ y then Real.arctan (y / x) + Real.pi else Real.arctan (y / x) - Real.pi)
  else
    (if 0 < y then Real.pi / 2 else if y < 0 then -(Real.pi / 2) else 0)

/-! ### NarwhalePart (server.js `class NarwhalePart`) -/

/-- One body-chain segment: `{x, y, vx, vy, rot, vt, oriRot}`. -/
structure NarwhalePart where
  x : ℝ
  y : ℝ
  vx : ℝ
  vy : ℝ
  rot : ℝ
  vt : ℝ
  oriRot : ℝ
deriving Inhabited

/-- `NarwhalePart.update(dt)`: integrate position and rotation. -/
def NarwhalePart.update (dt : ℝ) (p : NarwhalePart) : NarwhalePart :=
  { p with x := p.x + p.vx * dt, y := p.y + p.vy * dt, rot := p.rot + p.vt * dt }

/-! ### Player (server.js `class Player`) -/

/-- The simulation state of one player.  Fields not consulted by any verified
property (`socket`, `inputFlags`, `inputSequence`, `lastInputTime`, `uid`)
are omitted. -/
structure Player where
  id : ℕ
  nameBytes : List ℕ
  color : ℕ
  team : ℤ
  size : ℝ
  alpha : ℝ
  level : ℝ
  score : ℝ
  kills : ℕ
  deaths : ℕ
  posX : ℝ
  posY : ℝ
  velX : ℝ
  velY : ℝ
  angle : ℝ
  speed : ℝ
  maxSpeed : ℝ
  parts : List NarwhalePart
  breakPoint : ℕ
  maxDash : ℤ
  curDash : ℤ
  overDash : ℝ
  dashRegenRate : ℝ
  tuskR : ℝ
  decoration : ℕ
  invincibleDur : ℝ
  skincode : ℕ
  isAlive : Bool
  isSpawned : Bool
  respawnTime : ℤ
  lastPosX : ℝ
  lastPosY : ℝ
  lastDashTime : ℤ
  targetX : ℝ
  targetY : ℝ

/-- `Player.initializeParts()`: eleven segments trailing the head leftwards,
each rotated to the player's angle (all other fields are the constructor
zeroes). -/
def initParts (px py angle : ℝ) : List NarwhalePart :=
  (List.range 11).map fun i =>
    { x := px - i * 20, y := py, vx := 0, vy := 0, rot := angle, vt := 0, oriRot := 0 }

/-- The `Player` constructor.  Random draws are explicit parameters:
`rTeam` for the team coin flip, `rAngle` for the initial angle
(`Math.random()*2π` already applied), `rColor` for `randomColor()`'s 24-bit
result, `rSkin` for `floor(Math.random()*18)`. -/
noncomputable def mkPlayer (id : ℕ) (nameBytes : List ℕ) (rTeam rAngle : ℝ)
    (rColor rSkin : ℕ) : Player :=
  { id := id
    nameBytes := nameBytes.take 16        -- (name||'Narwhal').substring(0,16)
    color := rColor
    team := if 1/2 < rTeam then 1 else -1 -- Math.random()>0.5 ? 1 : -1
    size := 36
    alpha := 1
    level := 1
    score := 0
    kills := 0
    deaths := 0
    posX := 6400 / 2                      -- CONFIG.worldWidth/2
    posY := 6400 / 2
    velX := 0
    velY := 0
    angle := rAngle
    speed := 0
    maxSpeed := 150
    parts := initParts (6400 / 2) (6400 / 2) rAngle
    breakPoint := 11
    maxDash := 5
    curDash := 5
    overDash := 0
    dashRegenRate := 0.6
    tuskR := 0.5                          -- tuskRatio in the source
    decoration := 0
    invincibleDur := 0
    skincode := rSkin
    isAlive := true
    isSpawned := false
    respawnTime := 0
    lastPosX := 6400 / 2
    lastPosY := 6400 / 2
    lastDashTime := 0
    targetX := 0.001
    targetY := 0 }

/-- The `for (let i=0;i<this.parts.length;i++)` reset loop of
`Player.spawn`, carrying the running index. -/
def resetParts (px py angle : ℝ) : ℕ → List NarwhalePart → List NarwhalePart
  | _, [] => []
  | i, part :: rest =>
      { part with x := px - i * 20, y := py, vx := 0, vy := 0, rot := angle } ::
        resetParts px py angle (i + 1) rest

/-- `Player.spawn(room)`.  `w`/`h` are the owning room's
`config.options.width`/`height`; `rx`/`ry` are the two `Math.random()` draws
for the respawn position. -/
noncomputable def spawn (w h rx ry : ℝ) (p : Player) : Player :=
  let px := rx * (w - 400) + 200
  let py := ry * (h - 400) + 200
  { p with
    isAlive := true
    isSpawned := true
    posX := px
    posY := py
    velX := 0
    velY := 0
    invincibleDur := 2
    curDash := p.maxDash
    size := 36
    level := 1
    parts := resetParts px py p.angle 0 p.parts
    lastPosX := px
    lastPosY := py }

/-- `Player.processMovement(dt)`: seek the target with a 10px dead zone,
clamp speed to `maxSpeed`, apply flat friction, integrate position,
recompute scalar speed. -/
noncomputable def processMovement (dt : ℝ) (p : Player) : Player :=
  let dx := p.targetX - p.posX
  let dy := p.targetY - p.posY
  let dist := Real.sqrt (dx * dx + dy * dy)
  let p :=
    if 10 < dist then
      let nx := dx / dist
      let ny := dy / dist
      let vx := p.velX + nx * acceleration * dt
      let vy := p.velY + ny * acceleration * dt
      let sp := Real.sqrt (vx * vx + vy * vy)
      let vx' := if p.maxSpeed < sp then vx / sp * p.maxSpeed else vx
      let vy' := if p.maxSpeed < sp then vy / sp * p.maxSpeed else vy
      { p with velX := vx', velY := vy', angle := atan2 dy dx }
    else p
  let vx := p.velX * friction
  let vy := p.velY * friction
  { p with
    velX := vx
    velY := vy
    posX := p.posX + vx * dt
    posY := p.posY + vy * dt
    speed := Real.sqrt (vx * vx + vy * vy) }

/-- The body of the `for (let i=1;...)` loop of `Player.updateParts`: if `i`
is not the break point the segment chain-follows its (already updated)
predecessor, otherwise it integrates as a free body with separate linear and
angular damping. -/
noncomputable def chainStep (size dt : ℝ) (breakPoint : ℕ) (i : ℕ)
    (prev part : NarwhalePart) : NarwhalePart :=
  if i ≠ breakPoint then
    let seg := 25 + size * 0.2
    let tx := prev.x - Real.cos prev.rot * seg
    let ty := prev.y - Real.sin prev.rot * seg
    let x' := part.x + (tx - part.x) * 0.4
    let y' := part.y + (ty - part.y) * 0.4
    let rot' := atan2 (prev.y - y') (prev.x - x')
    { part with x := x', y := y', rot := rot', oriRot := rot' }
  else
    let u := part.update dt
    { u with vx := u.vx * 0.98, vy := u.vy * 0.98, vt := u.vt * 0.95 }

/-- Sequential in-place traversal of the trailing segments: each step feeds
the updated segment to the next one, mirroring the array mutation in the
source. -/
noncomputable def chainFold (size dt : ℝ) (breakPoint : ℕ) :
    NarwhalePart → ℕ → List NarwhalePart → List NarwhalePart
  | _, _, [] => []
  | prev, i, part :: rest =>
      let part' := chainStep size dt breakPoint i prev part
      part' :: chainFold size dt breakPoint part' (i + 1) rest

/-- The chain-follow branch of `chainStep` on its own (the free-body branch
removed); used to state that the free-body branch is dead code. -/
noncomputable def chainStepFollow (size : ℝ) (prev part : NarwhalePart) : NarwhalePart :=
  let seg := 25 + size * 0.2
  let tx := prev.x - Real.cos prev.rot * seg
  let ty := prev.y - Real.sin prev.rot * seg
  let x' := part.x + (tx - part.x) * 0.4
  let y' := part.y + (ty - part.y) * 0.4
  let rot' := atan2 (prev.y - y') (prev.x - x')
  { part with x := x', y := y', rot := rot', oriRot := rot' }

/-- `chainFold` with every segment chain-following (no break-point test). -/
noncomputable def chainFoldFollow (size : ℝ) :
    NarwhalePart → List NarwhalePart → List NarwhalePart
  | _, [] => []
  | prev, part :: rest =>
      let part' := chainStepFollow size prev part
      part' :: chainFoldFollow size part' rest

/-- `Player.updateParts(dt)`: segment 0 mirrors the head, the rest are
updated sequentially by `chainStep`.  (The source indexes `parts[0]`
unconditionally; `parts` is always nonempty, and the empty case is modelled
as a no-op.) -/
noncomputable def updateParts (dt : ℝ) (p : Player) : Player :=
  match p.parts with
  | [] => p
  | h :: rest =>
      let head := { h with x := p.posX, y := p.posY, rot := p.angle, vx := p.velX, vy := p.velY }
      { p with parts := head :: chainFold p.size dt p.breakPoint head 1 rest }

/-- `Player.updateParts` with the free-body branch removed everywhere. -/
noncomputable def updatePartsFollow (dt : ℝ) (p : Player) : Player :=
  match p.parts with
  | [] => p
  | h :: rest =>
      let head := { h with x := p.posX, y := p.posY, rot := p.angle, vx := p.velX, vy := p.velY }
      { p with parts := head :: chainFoldFollow p.size head rest }

/-- `Player.clampToWorld()` with the owning room's bounds passed explicitly
(margin 100). -/
noncomputable def clampToWorld (w h : ℝ) (p : Player) : Player :=
  { p with
    posX := max 100 (min (w - 100) p.posX)
    posY := max 100 (min (h - 100) p.posY) }

/-- `Player.updateSize()`: derived level, size and max speed. -/
noncomputable def updateSize (p : Player) : Player :=
  let level : ℝ := (⌊p.score / 100⌋ : ℤ) + 1
  { p with
    level := level
    size := 36 + (level - 1) * 3
    maxSpeed := max 80 (150 - (level - 1) * 5) }

/-- `Player.setTarget(x, y)` with the owning room's bounds passed
explicitly. -/
noncomputable def setTarget (w h x y : ℝ) (p : Player) : Player :=
  { p with
    targetX := max 0 (min w x)
    targetY := max 0 (min h y) }

/-- The dash-regeneration step inlined in `Player.update`: accumulate
`dt * dashRegenRate` and convert a full accumulator into one charge, capped
at `maxDash`, resetting the accumulator to 0. -/
noncomputable def dashRegen (dt : ℝ) (p : Player) : Player :=
  if p.curDash < p.maxDash then
    let od := p.overDash + dt * p.dashRegenRate
    if 1 ≤ od then { p with curDash := min p.maxDash (p.curDash + 1), overDash := 0 }
    else { p with overDash := od }
  else p

/-- `Player.update(dt, validator)`.  `now` is `Date.now()`; `w`, `h`, `rx`,
`ry` are the owning room's bounds and the random draws consumed if this tick
respawns the player. -/
noncomputable def update (dt : ℝ) (now : ℤ) (w h rx ry : ℝ) (p : Player) : Player :=
  if p.isAlive then
    let p := { p with invincibleDur := max 0 (p.invincibleDur - dt) }
    let p := dashRegen dt p
    let p := processMovement dt p
    let p := updateParts dt p
    let p := clampToWorld w h p
    let p := updateSize p
    { p with lastPosX := p.posX, lastPosY := p.posY }
  else
    -- if (Date.now() > this.respawnTime) spawn
    if p.respawnTime < now then spawn w h rx ry p else p

/-- `InputValidator.validateDash(player)` applied to a `Player`. -/
def validateDash (now : ℤ) (p : Player) : Bool :=
  validateDashRaw now p.curDash p.lastDashTime

/-- `Player.useDash(validator)`: returns whether the dash was applied
together with the updated player. -/
noncomputable def useDash (now : ℤ) (p : Player) : Bool × Player :=
  if validateDash now p then
    if 0 < p.curDash then
      (true,
       { p with
         curDash := p.curDash - 1
         lastDashTime := now
         velX := p.velX + Real.cos p.angle * dashPower
         velY := p.velY + Real.sin p.angle * dashPower })
    else (false, p)
  else (false, p)

/-- `Player.die()` (the RIP notification is transport, not state). -/
def die (now : ℤ) (p : Player) : Player :=
  { p with
    isAlive := false
    isSpawned := false
    deaths := p.deaths + 1
    respawnTime := now + 3000 }

/-- `Player.takeDamage(amount, attacker)`.  JavaScript's reference
inequality `attacker !== this` is modelled as id inequality (players in a
room have distinct ids).  Returns the boolean result, the updated victim and
the updated attacker. -/
noncomputable def takeDamage (now : ℤ) (amount : ℝ) (p : Player)
    (attacker : Option Player) : Bool × Player × Option Player :=
  if 0 < p.invincibleDur then (false, p, attacker)
  else
    let attacker' := match attacker with
      | some a =>
          if a.id ≠ p.id then
            some { a with kills := a.kills + 1, score := a.score + (100 + p.level * 20) }
          else some a
      | none => none
    (true, die now p, attacker')

/-- `Vec2.distance` between two players' positions. -/
noncomputable def pdist (p1 p2 : Player) : ℝ :=
  Real.sqrt ((p1.posX - p2.posX) * (p1.posX - p2.posX) +
             (p1.posY - p2.posY) * (p1.posY - p2.posY))

/-- The body of the player-vs-player double loop of
`GameRoom.checkCollisions` for one unordered pair. -/
noncomputable def collidePair (now : ℤ) (p1 p2 : Player) : Player × Player :=
  let d := pdist p1 p2
  let colD := (p1.size + p2.size) * 0.6
  if d < colD then
    let diff := p1.size - p2.size
    if 10 < diff then
      let r := takeDamage now collisionDamage p2 (some p1)
      (r.2.2.getD p1, r.2.1)
    else if diff < -10 then
      let r := takeDamage now collisionDamage p1 (some p2)
      (r.2.1, r.2.2.getD p2)
    else (p1, p2)
  else (p1, p2)

/-! ### Operations a room can apply to one player

`GameRoom.update` runs `Player.update` on every player and then the
collision sweep, whose only effect on an individual player is a
`takeDamage` call (as victim or as credited attacker) or a food pickup
(`score += value*10`).  Message handlers additionally invoke `setTarget` and
`useDash`, and `addPlayer` invokes `spawn`.  Any reachable mutation of one
player is therefore a sequence of the following operations. -/
inductive PlayerOp where
  | tick (dt : ℝ) (now : ℤ) (w h rx ry : ℝ)
  | target (w h x y : ℝ)
  | dash (now : ℤ)
  | damage (now : ℤ) (attacker : Option Player)
  | credit (victimLevel : ℝ)
  | eat (value : ℝ)
  | respawn (w h rx ry : ℝ)

/-- Apply one operation to a player. -/
noncomputable def applyOp (p : Player) : PlayerOp → Player
  | .tick dt now w h rx ry => update dt now w h rx ry p
  | .target w h x y => setTarget w h x y p
  | .dash now => (useDash now p).2
  | .damage now attacker => (takeDamage now collisionDamage p attacker).2.1
  | .credit victimLevel =>
      { p with kills := p.kills + 1, score := p.score + (100 + victimLevel * 20) }
  | .eat value => { p with score := p.score + value * 10 }
  | .respawn w h rx ry => spawn w h rx ry p

/-- Apply a sequence of operations left to right. -/
noncomputable def applyOps (ops : List PlayerOp) (p : Player) : Player :=
  ops.foldl applyOp p

/-- The chain-length and dash-charge invariant of a player: eleven chain
segments, and the dash charge (an integer by its `ℤ` modelling; every source
operation on it is integer valued) between 0 and `maxDash`. -/
def Inv (p : Player) : Prop :=
  p.parts.length = 11 ∧ 0 ≤ p.curDash ∧ p.curDash ≤ p.maxDash

/-! ### Food and Room (server.js `class Food`, `class GameRoom`) -/

/-- A food pickup (`class Food`); `id` is `Date.now() + floor(rand*1000)`. -/
structure Food where
  id : ℕ
  x : ℝ
  y : ℝ
  value : ℕ
  size : ℕ
  color : ℕ

/-- The state of a room that the snapshot encoder reads: the players (in
`Map` iteration = insertion order) and the foods. -/
structure Room where
  players : List Player
  foods : List Food

/-! ### PacketEncoder (server.js `class PacketEncoder`) -/

/-- `PacketEncoder.encodeUintAngle(angle)`:
`Math.floor(((angle/Math.PI + 1)/2) * 255) & 0xFF`.  The JavaScript `& 0xFF`
(ToInt32 followed by masking the low byte) is `% 256` on integers
(Euclidean remainder). -/
noncomputable def encodeUintAngle (angle : ℝ) : ℤ :=
  ⌊((angle / Real.pi + 1) / 2) * 255⌋ % 256

/-- `buffer.writeUInt16LE(v)` for `0 ≤ v < 2^16`: two little-endian bytes. -/
def u16le (v : ℕ) : List ℕ :=
  [v % 256, v / 256 % 256]

/-- `buffer.writeUInt32LE(v)`: four little-endian bytes. -/
def u32le (v : ℕ) : List ℕ :=
  [v % 256, v / 256 % 256, v / 65536 % 256, v / 16777216 % 256]

/-- The packed team/level byte of a FISH record:
`(player.team & 0xFF) | ((player.level & 0x1F) << 3)`.  JavaScript `& mask`
first converts to a 32-bit two's-complement integer, so on the values in
range it equals the Euclidean remainder (`-1 & 0xFF = 255`); `<< 3` is
multiplication by 8. -/
def teamLevelByte (team level : ℤ) : ℤ :=
  Int.lor (team % 256) ((level % 32) * 8)

/-- The packed dash byte of a FISH record:
`(maxDash & 0xF) | ((curDash & 0xF) << 4)`. -/
def dashByte (maxDash curDash : ℤ) : ℤ :=
  Int.lor (maxDash % 16) ((curDash % 16) * 16)

/-- A concrete stand-in for the 4-byte `writeFloatLE` serialization, used
only to instantiate statements at concrete inputs (none of them depend on
the float bit patterns). -/
def f32stub : ℝ → List ℕ :=
  fun _ => [0, 0, 0, 0]

/-- The per-trailing-segment loop at the end of
`PacketEncoder._encodeFishElement`: one quantized-angle byte per segment,
except the break-point segment which is written as four `f32` fields
(x, y, vx, vy). -/
noncomputable def encodeSegments (f32 : ℝ → List ℕ) (breakPoint : ℕ) :
    ℕ → List NarwhalePart → List ℕ
  | _, [] => []
  | i, part :: rest =>
      (if i ≠ breakPoint then [(encodeUintAngle part.rot).toNat]
       else f32 part.x ++ f32 part.y ++ f32 part.vx ++ f32 part.vy) ++
      encodeSegments f32 breakPoint (i + 1) rest

/-- `PacketEncoder._encodeFishElement(buffer, offset, player)` as the list
of bytes it writes.  `Math.floor` results that the source masks with
`& 0xFF` become `% 256`; the id is written as `id >>> 0` (ids are
nonnegative numbers here).  The level byte truncates `player.level` to an
integer (`level` is a nonnegative integer in every reachable state, where
ToInt32 truncation is `⌊·⌋`). -/
noncomputable def encodeFish (f32 : ℝ → List ℕ) (p : Player) : List ℕ :=
  let head := p.parts.headI
  let sp := Real.sqrt (head.vx * head.vx + head.vy * head.vy)
  let ang := atan2 head.vy head.vx
  [0]                                                 -- ELEMENT_TYPES.FISH
  ++ u32le (p.id % 4294967296)                        -- writeUInt32LE(pid)
  ++ [p.color / 65536 % 256, p.color / 256 % 256, p.color % 256]
  ++ p.nameBytes.take 20 ++ [0]                       -- name (≤20 bytes) + NUL
  ++ [(teamLevelByte p.team ⌊p.level⌋).toNat]
  ++ [(⌊p.alpha * 255⌋ % 256).toNat]
  ++ [(dashByte p.maxDash p.curDash).toNat]
  ++ [(⌊p.overDash * 255⌋ % 256).toNat]
  ++ [(⌊p.tuskR * 127⌋ % 256).toNat]
  ++ [p.decoration % 256]
  ++ f32 head.x ++ f32 head.y
  ++ u16le (min ⌊sp⌋.toNat 65535)                     -- writeUInt16LE(min(floor(sp),65535))
  ++ [(encodeUintAngle ang).toNat]
  ++ [(encodeUintAngle head.rot).toNat]
  ++ [p.skincode % 256]
  ++ [(⌊p.invincibleDur * 255⌋ % 256).toNat]
  ++ [min 255 (p.parts.length - 1)]                   -- max(0, min(255, length-1))
  ++ encodeSegments f32 p.breakPoint 1 p.parts.tail

/-- `PacketEncoder._encodeFoodElement(buffer, offset, food)`. -/
noncomputable def encodeFood (f32 : ℝ → List ℕ) (f : Food) : List ℕ :=
  [6]                                                 -- ELEMENT_TYPES.FOOD
  ++ u32le (f.id % 4294967296)
  ++ f32 f.x ++ f32 f.y
  ++ [f.value % 256, f.size % 256]
  ++ [f.color / 65536 % 256, f.color / 256 % 256, f.color % 256]

/-- `PacketEncoder.encodeSetElements(room)`: opcode, 16-bit wall-clock
timestamp `Date.now() & 0xFFFF`, world flags, one FISH record per alive and
spawned player, then up to 100 FOOD records.  The buffer is over-allocated
and sliced to the written bytes, so the produced bytes are exactly this
list. -/
noncomputable def encodeSetElements (f32 : ℝ → List ℕ) (now : ℕ) (room : Room) : List ℕ :=
  [48]                                                -- OPCODES.SET_ELEMENTS
  ++ u16le (now % 65536)                              -- writeUInt16LE(Date.now() & 0xFFFF)
  ++ [0]                                              -- worldFlags
  ++ ((room.players.filter fun p => p.isAlive && p.isSpawned).map (encodeFish f32)).flatten
  ++ ((room.foods.take 100).map (encodeFood f32)).flatten

/-- A concrete constructed player (id 1, name "A", all random draws 0),
used to instantiate theorems. -/
noncomputable def pW : Player := mkPlayer 1 [65] 0 0 0 0

/-- A second concrete constructed player (id 2, name "B"). -/
noncomputable def pW2 : Player := mkPlayer 2 [66] 1 0 0 0

/-! ### Helper lemmas -/

@[simp]
theorem resetParts_length (px py a : ℝ) (i : ℕ) (l : List NarwhalePart) :
    (resetParts px py a i l).length = l.length := by
  induction l generalizing i with
  | nil => rfl
  | cons part rest ih => simp [resetParts, ih]

@[simp]
theorem chainFold_length (size dt : ℝ) (bp : ℕ) (prev : NarwhalePart) (i : ℕ)
    (l : List NarwhalePart) :
    (chainFold size dt bp prev i l).length = l.length := by
  induction l generalizing prev i with
  | nil => rfl
  | cons part rest ih => simp [chainFold, ih]

@[simp]
theorem spawn_score (w h rx ry : ℝ) (p : Player) : (spawn w h rx ry p).score = p.score := rfl

@[simp]
theorem spawn_kills (w h rx ry : ℝ) (p : Player) : (spawn w h rx ry p).kills = p.kills := rfl

@[simp]
theorem spawn_deaths (w h rx ry : ℝ) (p : Player) : (spawn w h rx ry p).deaths = p.deaths := rfl

@[simp]
theorem spawn_level (w h rx ry : ℝ) (p : Player) : (spawn w h rx ry p).level = 1 := rfl

@[simp]
theorem spawn_size (w h rx ry : ℝ) (p : Player) : (spawn w h rx ry p).size = 36 := rfl

@[simp]
theorem spawn_curDash (w h rx ry : ℝ) (p : Player) : (spawn w h rx ry p).curDash = p.maxDash := rfl

@[simp]
theorem spawn_maxDash (w h rx ry : ℝ) (p : Player) : (spawn w h rx ry p).maxDash = p.maxDash := rfl

@[simp]
theorem spawn_isAlive (w h rx ry : ℝ) (p : Player) : (spawn w h rx ry p).isAlive = true := rfl

@[simp]
theorem spawn_isSpawned (w h rx ry : ℝ) (p : Player) : (spawn w h rx ry p).isSpawned = true := rfl

@[simp]
theorem spawn_parts_length (w h rx ry : ℝ) (p : Player) :
    (spawn w h rx ry p).parts.length = p.parts.length := by
  simp [spawn]

@[simp]
theorem dashRegen_maxDash (dt : ℝ) (p : Player) : (dashRegen dt p).maxDash = p.maxDash := by
  rw [dashRegen]
  split
  · dsimp only
    split <;> rfl
  · rfl

@[simp]
theorem dashRegen_parts (dt : ℝ) (p : Player) : (dashRegen dt p).parts = p.parts := by
  rw [dashRegen]
  split
  · dsimp only
    split <;> rfl
  · rfl

@[simp]
theorem dashRegen_score (dt : ℝ) (p : Player) : (dashRegen dt p).score = p.score := by
  rw [dashRegen]
  split
  · dsimp only
    split <;> rfl
  · rfl

@[simp]
theorem dashRegen_kills (dt : ℝ) (p : Player) : (dashRegen dt p).kills = p.kills := by
  rw [dashRegen]
  split
  · dsimp only
    split <;> rfl
  · rfl

@[simp]
theorem dashRegen_deaths (dt : ℝ) (p : Player) : (dashRegen dt p).deaths = p.deaths := by
  rw [dashRegen]
  split
  · dsimp only
    split <;> rfl
  · rfl

/-- The dash-regeneration step keeps `curDash` an integer between its old
lower bound and `maxDash`. -/
theorem dashRegen_curDash_bounds (dt : ℝ) (p : Player)
    (h0 : 0 ≤ p.curDash) (h1 : p.curDash ≤ p.maxDash) :
    0 ≤ (dashRegen dt p).curDash ∧ (dashRegen dt p).curDash ≤ (dashRegen dt p).maxDash := by
  rw [dashRegen]
  split
  · dsimp only
    split
    · constructor
      · exact le_min (by omega) (by omega)
      · exact min_le_left _ _
    · exact ⟨h0, h1⟩
  · exact ⟨h0, h1⟩

@[simp]
theorem processMovement_curDash (dt : ℝ) (p : Player) :
    (processMovement dt p).curDash = p.curDash := by
  rw [processMovement]
  split <;> rfl

@[simp]
theorem processMovement_maxDash (dt : ℝ) (p : Player) :
    (processMovement dt p).maxDash = p.maxDash := by
  rw [processMovement]
  split <;> rfl

@[simp]
theorem processMovement_parts (dt : ℝ) (p : Player) :
    (processMovement dt p).parts = p.parts := by
  rw [processMovement]
  split <;> rfl

@[simp]
theorem processMovement_score (dt : ℝ) (p : Player) :
    (processMovement dt p).score = p.score := by
  rw [processMovement]
  split <;> rfl

@[simp]
theorem processMovement_kills (dt : ℝ) (p : Player) :
    (processMovement dt p).kills = p.kills := by
  rw [processMovement]
  split <;> rfl

@[simp]
theorem processMovement_deaths (dt : ℝ) (p : Player) :
    (processMovement dt p).deaths = p.deaths := by
  rw [processMovement]
  split <;> rfl

@[simp]
theorem updateParts_curDash (dt : ℝ) (p : Player) :
    (updateParts dt p).curDash = p.curDash := by
  rw [updateParts]
  cases p.parts <;> rfl

@[simp]
theorem updateParts_maxDash (dt : ℝ) (p : Player) :
    (updateParts dt p).maxDash = p.maxDash := by
  rw [updateParts]
  cases p.parts <;> rfl

@[simp]
theorem updateParts_score (dt : ℝ) (p : Player) :
    (updateParts dt p).score = p.score := by
  rw [updateParts]
  cases p.parts <;> rfl

@[simp]
theorem updateParts_kills (dt : ℝ) (p : Player) :
    (updateParts dt p).kills = p.kills := by
  rw [updateParts]
  cases p.parts <;> rfl

@[simp]
theorem updateParts_deaths (dt : ℝ) (p : Player) :
    (updateParts dt p).deaths = p.deaths := by
  rw [updateParts]
  cases p.parts <;> rfl

theorem updateParts_parts_length (dt : ℝ) (p : Player) :
    (updateParts dt p).parts.length = p.parts.length := by
  rw [updateParts]
  rcases hp : p.parts with _ | ⟨h, rest⟩
  · simp [hp]
  · simp [hp]

@[simp]
theorem clampToWorld_curDash (w h : ℝ) (p : Player) :
    (clampToWorld w h p).curDash = p.curDash := rfl

@[simp]
theorem clampToWorld_maxDash (w h : ℝ) (p : Player) :
    (clampToWorld w h p).maxDash = p.maxDash := rfl

@[simp]
theorem clampToWorld_parts (w h : ℝ) (p : Player) :
    (clampToWorld w h p).parts = p.parts := rfl

@[simp]
theorem clampToWorld_score (w h : ℝ) (p : Player) :
    (clampToWorld w h p).score = p.score := rfl

@[simp]
theorem clampToWorld_kills (w h : ℝ) (p : Player) :
    (clampToWorld w h p).kills = p.kills := rfl

@[simp]
theorem clampToWorld_deaths (w h : ℝ) (p : Player) :
    (clampToWorld w h p).deaths = p.deaths := rfl

@[simp]
theorem updateSize_curDash (p : Player) : (updateSize p).curDash = p.curDash := rfl

@[simp]
theorem updateSize_maxDash (p : Player) : (updateSize p).maxDash = p.maxDash := rfl

@[simp]
theorem updateSize_parts (p : Player) : (updateSize p).parts = p.parts := rfl

@[simp]
theorem updateSize_score (p : Player) : (updateSize p).score = p.score := rfl

@[simp]
theorem updateSize_kills (p : Player) : (updateSize p).kills = p.kills := rfl

@[simp]
theorem updateSize_deaths (p : Player) : (updateSize p).deaths = p.deaths := rfl

@[simp]
theorem updateSize_level (p : Player) :
    (updateSize p).level = ((⌊p.score / 100⌋ : ℤ) : ℝ) + 1 := rfl

@[simp]
theorem updateSize_size (p : Player) :
    (updateSize p).size = 36 + (((⌊p.score / 100⌋ : ℤ) : ℝ) + 1 - 1) * 3 := rfl

@[simp]
theorem setTarget_curDash (w h x y : ℝ) (p : Player) :
    (setTarget w h x y p).curDash = p.curDash := rfl

@[simp]
theorem setTarget_maxDash (w h x y : ℝ) (p : Player) :
    (setTarget w h x y p).maxDash = p.maxDash := rfl

@[simp]
theorem setTarget_parts (w h x y : ℝ) (p : Player) :
    (setTarget w h x y p).parts = p.parts := rfl

@[simp]
theorem die_curDash (now : ℤ) (p : Player) : (die now p).curDash = p.curDash := rfl

@[simp]
theorem die_maxDash (now : ℤ) (p : Player) : (die now p).maxDash = p.maxDash := rfl

@[simp]
theorem die_parts (now : ℤ) (p : Player) : (die now p).parts = p.parts := rfl

/-- The victim returned by `takeDamage` is either unchanged or dead; in both
cases its chain, dash charge and dash capacity are unchanged. -/
theorem takeDamage_victim_proj (now : ℤ) (amount : ℝ) (p : Player) (a : Option Player) :
    (takeDamage now amount p a).2.1.parts = p.parts ∧
    (takeDamage now amount p a).2.1.curDash = p.curDash ∧
    (takeDamage now amount p a).2.1.maxDash = p.maxDash := by
  rw [takeDamage.eq_def]
  split
  · exact ⟨rfl, rfl, rfl⟩
  · exact ⟨rfl, rfl, rfl⟩

/-- `useDash` leaves the chain and the dash capacity unchanged, and changes
`curDash` only by decrementing it when it was positive. -/
theorem useDash_proj (now : ℤ) (p : Player) :
    (useDash now p).2.parts = p.parts ∧
    (useDash now p).2.maxDash = p.maxDash ∧
    ((useDash now p).2.curDash = p.curDash ∨
      (0 < p.curDash ∧ (useDash now p).2.curDash = p.curDash - 1)) := by
  rw [useDash]
  split
  · split
    · exact ⟨rfl, rfl, Or.inr ⟨by assumption, rfl⟩⟩
    · exact ⟨rfl, rfl, Or.inl rfl⟩
  · exact ⟨rfl, rfl, Or.inl rfl⟩

/-- One tick of `Player.update` preserves score, kill and death counters
(nothing in the per-tick pipeline touches them). -/
theorem update_counters (dt : ℝ) (now : ℤ) (w h rx ry : ℝ) (p : Player) :
    (update dt now w h rx ry p).score = p.score ∧
    (update dt now w h rx ry p).kills = p.kills ∧
    (update dt now w h rx ry p).deaths = p.deaths := by
  rw [update]
  split
  · refine ⟨?_, ?_, ?_⟩ <;> simp
  · split
    · refine ⟨?_, ?_, ?_⟩ <;> simp
    · exact ⟨rfl, rfl, rfl⟩

/-- One tick of `Player.update` preserves the chain length. -/
theorem update_parts_length (dt : ℝ) (now : ℤ) (w h rx ry : ℝ) (p : Player) :
    (update dt now w h rx ry p).parts.length = p.parts.length := by
  rw [update]
  split
  · simp [updateParts_parts_length]
  · split
    · simp
    · rfl

/-- One tick of `Player.update` keeps `maxDash` unchanged and `curDash`
within its bounds. -/
theorem update_curDash_bounds (dt : ℝ) (now : ℤ) (w h rx ry : ℝ) (p : Player)
    (h0 : 0 ≤ p.curDash) (h1 : p.curDash ≤ p.maxDash) :
    0 ≤ (update dt now w h rx ry p).curDash ∧
    (update dt now w h rx ry p).curDash ≤ (update dt now w h rx ry p).maxDash := by
  rw [update]
  split
  · have hb := dashRegen_curDash_bounds dt
      { p with invincibleDur := max 0 (p.invincibleDur - dt) } h0 h1
    simpa using hb
  · split
    · simpa using le_trans h0 h1
    · exact ⟨h0, h1⟩

/-- Within one window (no call more than 1000 ms after the window start
`t0`), the calls starting from a stored count `c` return `true` exactly
while the running count stays at or below 120. -/
theorem rateRun_window_get (ts : List ℤ) (c t0 : ℤ) (hw : ∀ t ∈ ts, t - t0 ≤ 1000)
    (i : ℕ) (hi : i < ts.length) :
    (rateRun ts (some ⟨c, t0⟩)).1.get? i = some (decide (c + i + 1 ≤ 120)) := by
  induction ts generalizing c i with
  | nil => simp at hi
  | cons t ts ih =>
      have ht : ¬ (1000 < t - t0) := not_lt.mpr (hw t (by simp))
      have hrest : ∀ u ∈ ts, u - t0 ≤ 1000 := fun u hu => hw u (by simp [hu])
      match i with
      | 0 =>
          simp [rateRun, validateInputRate, ht, maxInputRate]
      | Nat.succ j =>
          have hj : j < ts.length := by simpa using hi
          have hres := ih (c + 1) hrest j hj
          simp only [rateRun, validateInputRate, ht, if_false, List.get?_cons_succ]
          rw [hres]
          congr 1
          apply decide_eq_decide.mpr
          push_cast
          omega

/-- `Int.lor 255 (k * 8) = 255` for `0 ≤ k < 32`: the low eight bits are
already all set, and `k * 8` only occupies bits 3–7. -/
theorem lor255_eq (k : ℤ) (h0 : 0 ≤ k) (h2 : k < 32) : Int.lor 255 (k * 8) = 255 := by
  obtain ⟨n, hn⟩ := Int.eq_ofNat_of_zero_le h0
  have hlt : n < 32 := by exact_mod_cast hn ▸ h2
  rw [hn]
  have hmul : ((n : ℤ) * 8) = ((n * 8 : ℕ) : ℤ) := by push_cast; ring
  rw [hmul]
  have h255 : ((255 : ℕ) : ℤ) = (255 : ℤ) := by norm_num
  have hrfl : Int.lor ((255 : ℕ) : ℤ) ((n * 8 : ℕ) : ℤ) = ((Nat.lor 255 (n * 8) : ℕ) : ℤ) := rfl
  rw [← h255, hrfl]
  have hn32 := (by decide : ∀ m : ℕ, m < 32 → Nat.lor 255 (m * 8) = 255) n hlt
  rw [hn32]

/-- Every operation a room or a message handler can apply to a player
preserves the chain-length/dash-charge invariant. -/
theorem inv_applyOp (p : Player) (op : PlayerOp) (h : Inv p) : Inv (applyOp p op) := by
  obtain ⟨hlen, h0, h1⟩ := h
  cases op with
  | tick dt now w h rx ry =>
      refine ⟨?_, ?_⟩
      · rw [applyOp, update_parts_length]; exact hlen
      · exact update_curDash_bounds dt now w h rx ry p h0 h1
  | target w h x y => exact ⟨by simpa using hlen, by simpa using h0, by simpa using h1⟩
  | dash now =>
      obtain ⟨hp, hm, hc⟩ := useDash_proj now p
      refine ⟨by rw [applyOp, hp]; exact hlen, ?_, ?_⟩
      · rcases hc with hc | ⟨hpos, hc⟩ <;> rw [applyOp, hc] <;> omega
      · rcases hc with hc | ⟨hpos, hc⟩ <;> rw [applyOp, hc, hm] <;> omega
  | damage now attacker =>
      obtain ⟨hp, hc, hm⟩ := takeDamage_victim_proj now collisionDamage p attacker
      exact ⟨by rw [applyOp, hp]; exact hlen, by rw [applyOp, hc]; exact h0,
             by rw [applyOp, hc, hm]; exact h1⟩
  | credit victimLevel => exact ⟨hlen, h0, h1⟩
  | eat value => exact ⟨hlen, h0, h1⟩
  | respawn w h rx ry =>
      refine ⟨?_, ?_, ?_⟩
      · show (spawn w h rx ry p).parts.length = 11
        simpa using hlen
      · show (0 : ℤ) ≤ (spawn w h rx ry p).curDash
        simpa using le_trans h0 h1
      · show (spawn w h rx ry p).curDash ≤ (spawn w h rx ry p).maxDash
        simp

/-- The invariant is preserved by any sequence of operations. -/
theorem inv_applyOps (ops : List PlayerOp) (p : Player) (h : Inv p) : Inv (applyOps ops p) := by
  induction ops generalizing p with
  | nil => exact h
  | cons op rest ih => exact ih (applyOp p op) (inv_applyOp p op h)

/-- A freshly constructed player satisfies the invariant. -/
theorem inv_mkPlayer (id : ℕ) (nb : List ℕ) (rTeam rAngle : ℝ) (rColor rSkin : ℕ) :
    Inv (mkPlayer id nb rTeam rAngle rColor rSkin) := by
  refine ⟨?_, ?_, ?_⟩
  · show (initParts (6400 / 2) (6400 / 2) rAngle).length = 11
    rfl
  · norm_num [mkPlayer]
  · norm_num [mkPlayer]

/-! ### Claim theorems -/

/-- C3: starting from the constructor state, after any interleaving of
ticks (`Player.update`), `setTarget`, `useDash`, `takeDamage` (as victim),
kill credits (as attacker), food pickups and respawns — everything a room
tick or a message handler can do to a player — the chain still has exactly
11 segments and the dash charge (an integer by construction of the `ℤ`
model) satisfies `0 ≤ curDash ≤ maxDash`. -/
theorem c3_chain_dash_invariant (ops : List PlayerOp) (id : ℕ) (nb : List ℕ)
    (rTeam rAngle : ℝ) (rColor rSkin : ℕ) :
    (applyOps ops (mkPlayer id nb rTeam rAngle rColor rSkin)).parts.length = 11 ∧
    0 ≤ (applyOps ops (mkPlayer id nb rTeam rAngle rColor rSkin)).curDash ∧
    (applyOps ops (mkPlayer id nb rTeam rAngle rColor rSkin)).curDash ≤
      (applyOps ops (mkPlayer id nb rTeam rAngle rColor rSkin)).maxDash :=
  inv_applyOps ops _ (inv_mkPlayer id nb rTeam rAngle rColor rSkin)

/-- `Player.update` of an alive player ends with `updateSize`, so level and
size are recomputed from the score, which no step of the pipeline changes. -/
theorem update_level_size_of_alive (dt : ℝ) (now : ℤ) (w h rx ry : ℝ) (p : Player)
    (ha : p.isAlive = true) :
    (update dt now w h rx ry p).level = ((⌊p.score / 100⌋ : ℤ) : ℝ) + 1 ∧
    (update dt now w h rx ry p).size = 36 + ((((⌊p.score / 100⌋ : ℤ) : ℝ) + 1) - 1) * 3 := by
  rw [update, if_pos ha]
  constructor <;> simp

/-- C10: `spawn` leaves `score`, `kills` and `deaths` unchanged and resets
`level` to 1 and `size` to 36; but the first `update` tick after the respawn
recomputes `level = floor(score/100)+1` and `size = 36+(level-1)*3` from the
preserved score, so with `score ≥ 100` the respawned player is back at the
level and size its accumulated score implies (the reset is undone). -/
theorem c10_respawn_keeps_score_level (w h rx ry dt : ℝ) (now : ℤ) (w2 h2 rx2 ry2 : ℝ)
    (p : Player) (hs : 100 ≤ p.score) :
    (spawn w h rx ry p).score = p.score ∧
    (spawn w h rx ry p).kills = p.kills ∧
    (spawn w h rx ry p).deaths = p.deaths ∧
    (spawn w h rx ry p).level = 1 ∧
    (spawn w h rx ry p).size = 36 ∧
    (update dt now w2 h2 rx2 ry2 (spawn w h rx ry p)).score = p.score ∧
    (update dt now w2 h2 rx2 ry2 (spawn w h rx ry p)).level
      = ((⌊p.score / 100⌋ : ℤ) : ℝ) + 1 ∧
    (update dt now w2 h2 rx2 ry2 (spawn w h rx ry p)).size
      = 36 + ((((⌊p.score / 100⌋ : ℤ) : ℝ) + 1) - 1) * 3 ∧
    2 ≤ (update dt now w2 h2 rx2 ry2 (spawn w h rx ry p)).level := by
  have hupd := update_level_size_of_alive dt now w2 h2 rx2 ry2 (spawn w h rx ry p)
    (spawn_isAlive w h rx ry p)
  have hcnt := update_counters dt now w2 h2 rx2 ry2 (spawn w h rx ry p)
  have hfloor : (1 : ℤ) ≤ ⌊p.score / 100⌋ := by
    rw [Int.le_floor]
    push_cast
    linarith
  refine ⟨rfl, rfl, rfl, rfl, rfl, ?_, ?_, ?_, ?_⟩
  · rw [hcnt.1, spawn_score]
  · rw [hupd.1, spawn_score]
  · rw [hupd.2, spawn_score]
  · rw [hupd.1, spawn_score]
    have hc : ((1 : ℤ) : ℝ) ≤ ((⌊p.score / 100⌋ : ℤ) : ℝ) := by exact_mod_cast hfloor
    push_cast at hc
    linarith

/-- C10 witness: a player with score 150 respawns at level 1 / size 36, and
the first tick puts it back at level 2. -/
theorem c10_respawn_keeps_score_level_witness :
    ((100 : ℝ) ≤ ({ pW with score := 150 } : Player).score) ∧
    ((spawn 6400 6400 0 0 { pW with score := 150 }).score
        = ({ pW with score := 150 } : Player).score ∧
     (spawn 6400 6400 0 0 { pW with score := 150 }).kills
        = ({ pW with score := 150 } : Player).kills ∧
     (spawn 6400 6400 0 0 { pW with score := 150 }).deaths
        = ({ pW with score := 150 } : Player).deaths ∧
     (spawn 6400 6400 0 0 { pW with score := 150 }).level = 1 ∧
     (spawn 6400 6400 0 0 { pW with score := 150 }).size = 36 ∧
     (update 1 0 6400 6400 0 0 (spawn 6400 6400 0 0 { pW with score := 150 })).score
        = ({ pW with score := 150 } : Player).score ∧
     (update 1 0 6400 6400 0 0 (spawn 6400 6400 0 0 { pW with score := 150 })).level
        = ((⌊({ pW with score := 150 } : Player).score / 100⌋ : ℤ) : ℝ) + 1 ∧
     (update 1 0 6400 6400 0 0 (spawn 6400 6400 0 0 { pW with score := 150 })).size
        = 36 + ((((⌊({ pW with score := 150 } : Player).score / 100⌋ : ℤ) : ℝ) + 1) - 1) * 3 ∧
     2 ≤ (update 1 0 6400 6400 0 0 (spawn 6400 6400 0 0 { pW with score := 150 })).level) :=
  ⟨by norm_num,
   c10_respawn_keeps_score_level 6400 6400 0 0 1 0 6400 6400 0 0
     { pW with score := 150 } (by norm_num)⟩

/-- C5: if a `useDash` call succeeds at time `now1 ≠ 0` and a second call is
made at `now2` with `now2 − now1 < 100`, the second call returns `false`,
changes nothing (in particular applies no velocity impulse), and the dash
charge after both calls is exactly the original charge minus 1. -/
theorem c5_dash_spam (p : Player) (now1 now2 : ℤ)
    (h1 : (useDash now1 p).1 = true) (hn : now1 ≠ 0) (h2 : now2 - now1 < 100) :
    (useDash now2 (useDash now1 p).2).1 = false ∧
    (useDash now2 (useDash now1 p).2).2 = (useDash now1 p).2 ∧
    (useDash now1 p).2.curDash = p.curDash - 1 ∧
    (useDash now2 (useDash now1 p).2).2.curDash = p.curDash - 1 := by
  by_cases hv : validateDash now1 p = true
  · by_cases hc : 0 < p.curDash
    · have hshape : (useDash now1 p).2 =
        { p with
          curDash := p.curDash - 1
          lastDashTime := now1
          velX := p.velX + Real.cos p.angle * dashPower
          velY := p.velY + Real.sin p.angle * dashPower } := by
        rw [useDash, if_pos hv, if_pos hc]
      have hval2 : validateDash now2 (useDash now1 p).2 = false := by
        rw [hshape, validateDash, validateDashRaw]
        split
        · rfl
        · rw [if_pos ⟨hn, h2⟩]
      have hsecond : useDash now2 (useDash now1 p).2 = (false, (useDash now1 p).2) := by
        rw [useDash, hval2]
        simp
      refine ⟨by rw [hsecond], by rw [hsecond], by rw [hshape], by rw [hsecond, hshape]⟩
    · exfalso
      rw [useDash, if_pos hv, if_neg hc] at h1
      simp at h1
  · exfalso
    rw [useDash] at h1
    rw [if_neg ?hne] at h1
    case hne => exact fun hcontra => hv hcontra
    simp at h1

/-- C5 witness: the fresh player (5 charges, `lastDashTime = 0`) dashes
successfully at `t = 1000` and is refused at `t = 1050`, having spent
exactly one charge. -/
theorem c5_dash_spam_witness :
    ((useDash 1000 pW).1 = true) ∧ ((1000 : ℤ) ≠ 0) ∧ ((1050 : ℤ) - 1000 < 100) ∧
    ((useDash 1050 (useDash 1000 pW).2).1 = false ∧
     (useDash 1050 (useDash 1000 pW).2).2 = (useDash 1000 pW).2 ∧
     (useDash 1000 pW).2.curDash = pW.curDash - 1 ∧
     (useDash 1050 (useDash 1000 pW).2).2.curDash = pW.curDash - 1) :=
  ⟨by rw [useDash, if_pos (by rw [pW, validateDash, validateDashRaw]; norm_num [mkPlayer])]
      rw [if_pos (by norm_num [pW, mkPlayer])],
   by norm_num, by norm_num,
   c5_dash_spam pW 1000 1050
     (by rw [useDash, if_pos (by rw [pW, validateDash, validateDashRaw]; norm_num [mkPlayer])]
         rw [if_pos (by norm_num [pW, mkPlayer])])
     (by norm_num) (by norm_num)⟩

/-- C7: `takeDamage` is a no-op returning `false` while the victim is
invincible (both victim and attacker unchanged); otherwise it returns
`true`, credits a distinct attacker with one kill and `100 + victim.level*20`
score, and puts the victim in the DEAD state: not alive, not spawned,
deaths incremented, respawn 3000 ms in the future. -/
theorem c7_take_damage (now : ℤ) (amount : ℝ) (p a : Player) :
    (0 < p.invincibleDur →
      takeDamage now amount p (some a) = (false, p, some a) ∧
      takeDamage now amount p none = (false, p, none)) ∧
    (p.invincibleDur ≤ 0 →
      takeDamage now amount p none = (true, die now p, none) ∧
      (a.id ≠ p.id →
        takeDamage now amount p (some a) =
          (true, die now p,
           some { a with kills := a.kills + 1, score := a.score + (100 + p.level * 20) })) ∧
      (die now p).isAlive = false ∧
      (die now p).isSpawned = false ∧
      (die now p).deaths = p.deaths + 1 ∧
      (die now p).respawnTime = now + 3000) := by
  constructor
  · intro h
    constructor <;> rw [takeDamage.eq_def, if_pos h]
  · intro h
    have hn := not_lt.mpr h
    refine ⟨?_, ?_, rfl, rfl, rfl, rfl⟩
    · rw [takeDamage.eq_def, if_neg hn]
    · intro hid
      rw [takeDamage.eq_def, if_neg hn]
      simp [hid]

/-- C7 witness: an invincible victim is untouched; a vulnerable victim dies
and the distinct attacker is credited. -/
theorem c7_take_damage_witness :
    (0 < ({ pW with invincibleDur := 2 } : Player).invincibleDur ∧
     takeDamage 0 100 { pW with invincibleDur := 2 } (some pW2)
       = (false, { pW with invincibleDur := 2 }, some pW2)) ∧
    (pW.invincibleDur ≤ 0 ∧ pW2.id ≠ pW.id ∧
     takeDamage 5000 100 pW (some pW2)
       = (true, die 5000 pW,
          some { pW2 with kills := pW2.kills + 1,
                          score := pW2.score + (100 + pW.level * 20) }) ∧
     (die 5000 pW).isAlive = false ∧
     (die 5000 pW).deaths = pW.deaths + 1 ∧
     (die 5000 pW).respawnTime = 5000 + 3000) := by
  constructor
  · have h : (0 : ℝ) < ({ pW with invincibleDur := 2 } : Player).invincibleDur := by norm_num
    exact ⟨h, ((c7_take_damage 0 100 { pW with invincibleDur := 2 } pW2).1 h).1⟩
  · have h : pW.invincibleDur ≤ 0 := by norm_num [pW, mkPlayer]
    have hid : pW2.id ≠ pW.id := by norm_num [pW, pW2, mkPlayer]
    obtain ⟨h1, h2, h3, h4, h5, h6⟩ := (c7_take_damage 5000 100 pW pW2).2 h
    exact ⟨h, hid, h2 hid, h3, h5, h6⟩

/-- The collision-pair interaction never records a death on both sides. -/
theorem collidePair_deaths (now : ℤ) (p1 p2 : Player) :
    (collidePair now p1 p2).1.deaths = p1.deaths ∨
    (collidePair now p1 p2).2.deaths = p2.deaths := by
  rw [collidePair]
  dsimp only
  split
  · split
    · left
      rw [takeDamage.eq_def]
      split
      · rfl
      · dsimp only
        split
        · rfl
        · rfl
    · split
      · right
        rw [takeDamage.eq_def]
        split
        · rfl
        · dsimp only
          split
          · rfl
          · rfl
      · exact Or.inl rfl
  · exact Or.inl rfl

/-- C6: for an unordered pair of (alive) players within collision distance
`(size1+size2)*0.6`: if the size gap exceeds 10, exactly the smaller player
takes damage from the larger (dying unless invincible, in which case nothing
happens at all), the larger is only credited; if the gap is within ±10,
neither player is touched; and in no case do both players record a death. -/
theorem c6_collision_threshold (now : ℤ) (p1 p2 : Player)
    (hd : pdist p1 p2 < (p1.size + p2.size) * 0.6) (hid : p1.id ≠ p2.id) :
    (10 < p1.size - p2.size → p2.invincibleDur ≤ 0 →
       collidePair now p1 p2 =
         ({ p1 with kills := p1.kills + 1, score := p1.score + (100 + p2.level * 20) },
          die now p2)) ∧
    (10 < p1.size - p2.size → 0 < p2.invincibleDur → collidePair now p1 p2 = (p1, p2)) ∧
    (p1.size - p2.size < -10 → p1.invincibleDur ≤ 0 →
       collidePair now p1 p2 =
         (die now p1,
          { p2 with kills := p2.kills + 1, score := p2.score + (100 + p1.level * 20) })) ∧
    (p1.size - p2.size < -10 → 0 < p1.invincibleDur → collidePair now p1 p2 = (p1, p2)) ∧
    (-10 ≤ p1.size - p2.size → p1.size - p2.size ≤ 10 → collidePair now p1 p2 = (p1, p2)) ∧
    ((collidePair now p1 p2).1.deaths = p1.deaths ∨
     (collidePair now p1 p2).2.deaths = p2.deaths) := by
  refine ⟨?_, ?_, ?_, ?_, ?_, collidePair_deaths now p1 p2⟩
  · intro h10 hinv
    rw [collidePair]
    dsimp only
    rw [if_pos hd, if_pos h10, takeDamage.eq_def, if_neg (not_lt.mpr hinv)]
    simp [hid]
  · intro h10 hinv
    rw [collidePair]
    dsimp only
    rw [if_pos hd, if_pos h10, takeDamage.eq_def, if_pos hinv]
    rfl
  · intro h10 hinv
    have hno : ¬ (10 < p1.size - p2.size) := by push_neg; linarith
    rw [collidePair]
    dsimp only
    rw [if_pos hd, if_neg hno, if_pos h10, takeDamage.eq_def, if_neg (not_lt.mpr hinv)]
    simp [Ne.symm hid]
  · intro h10 hinv
    have hno : ¬ (10 < p1.size - p2.size) := by push_neg; linarith
    rw [collidePair]
    dsimp only
    rw [if_pos hd, if_neg hno, if_pos h10, takeDamage.eq_def, if_pos hinv]
    rfl
  · intro hlo hhi
    have hno : ¬ (10 < p1.size - p2.size) := not_lt.mpr hhi
    have hno2 : ¬ (p1.size - p2.size < -10) := not_lt.mpr hlo
    rw [collidePair]
    dsimp only
    rw [if_pos hd, if_neg hno, if_neg hno2]

/-- C6 witness: sizes 40 vs 20 (gap 20 > 10) at distance 0 < 36: the smaller
player dies and the larger is credited; sizes 25 vs 20 (gap 5 ≤ 10) at
distance 0 < 27: nothing happens. -/
theorem c6_collision_threshold_witness :
    (pdist { pW with size := 40 } { pW2 with size := 20 }
       < (({ pW with size := 40 } : Player).size
           + ({ pW2 with size := 20 } : Player).size) * 0.6) ∧
    (({ pW with size := 40 } : Player).id ≠ ({ pW2 with size := 20 } : Player).id) ∧
    (10 < ({ pW with size := 40 } : Player).size - ({ pW2 with size := 20 } : Player).size) ∧
    (({ pW2 with size := 20 } : Player).invincibleDur ≤ 0) ∧
    (collidePair 0 { pW with size := 40 } { pW2 with size := 20 } =
      ({ pW with
          size := 40
          kills := pW.kills + 1
          score := pW.score + (100 + pW2.level * 20) },
       die 0 { pW2 with size := 20 })) ∧
    (pdist { pW with size := 25 } { pW2 with size := 20 }
       < (({ pW with size := 25 } : Player).size
           + ({ pW2 with size := 20 } : Player).size) * 0.6) ∧
    (-10 ≤ ({ pW with size := 25 } : Player).size - ({ pW2 with size := 20 } : Player).size) ∧
    (({ pW with size := 25 } : Player).size - ({ pW2 with size := 20 } : Player).size ≤ 10) ∧
    (collidePair 0 { pW with size := 25 } { pW2 with size := 20 }
       = ({ pW with size := 25 }, { pW2 with size := 20 })) := by
  have hd1 : pdist { pW with size := 40 } { pW2 with size := 20 }
      < (({ pW with size := 40 } : Player).size
          + ({ pW2 with size := 20 } : Player).size) * 0.6 := by
    rw [pdist]
    norm_num [pW, pW2, mkPlayer, Real.sqrt_zero]
  have hd2 : pdist { pW with size := 25 } { pW2 with size := 20 }
      < (({ pW with size := 25 } : Player).size
          + ({ pW2 with size := 20 } : Player).size) * 0.6 := by
    rw [pdist]
    norm_num [pW, pW2, mkPlayer, Real.sqrt_zero]
  have hid1 : ({ pW with size := 40 } : Player).id ≠ ({ pW2 with size := 20 } : Player).id := by
    norm_num [pW, pW2, mkPlayer]
  have hid2 : ({ pW with size := 25 } : Player).id ≠ ({ pW2 with size := 20 } : Player).id := by
    norm_num [pW, pW2, mkPlayer]
  have h10 : (10 : ℝ) < ({ pW with size := 40 } : Player).size
      - ({ pW2 with size := 20 } : Player).size := by norm_num
  have hinv : ({ pW2 with size := 20 } : Player).invincibleDur ≤ 0 := by
    norm_num [pW2, mkPlayer]
  have hlo : (-10 : ℝ) ≤ ({ pW with size := 25 } : Player).size
      - ({ pW2 with size := 20 } : Player).size := by norm_num
  have hhi : ({ pW with size := 25 } : Player).size
      - ({ pW2 with size := 20 } : Player).size ≤ 10 := by norm_num
  refine ⟨hd1, hid1, h10, hinv, ?_, hd2, hlo, hhi, ?_⟩
  · exact (c6_collision_threshold 0 { pW with size := 40 } { pW2 with size := 20 }
      hd1 hid1).1 h10 hinv
  · exact ((c6_collision_threshold 0 { pW with size := 25 } { pW2 with size := 20 }
      hd2 hid2).2.2.2.2).1 hlo hhi

/-- C4: for one connection, `validateInputRate` returns `true` for exactly
the first 120 calls whose times stay within 1000 ms of the window start
(the first call's time `t0`), and `false` from the 121st call onward in that
window; a call more than 1000 ms after the window start resets the counter
and is accepted again (count restarts from 0, so the call itself sees
count 1). -/
theorem c4_input_rate_limit (t0 : ℤ) (ts : List ℤ) (hw : ∀ t ∈ ts, t - t0 ≤ 1000)
    (i : ℕ) (hi : i < ts.length + 1) (c tR : ℤ) (hroll : 1000 < tR - t0) :
    (rateRun (t0 :: ts) none).1.get? i = some (decide ((i : ℤ) + 1 ≤ 120)) ∧
    validateInputRate tR (some ⟨c, t0⟩) = (true, ⟨1, tR⟩) := by
  constructor
  · have hfirst : validateInputRate t0 none = (true, ⟨1, t0⟩) := by
      simp [validateInputRate, maxInputRate]
    match i with
    | 0 => simp [rateRun, hfirst, validateInputRate, maxInputRate]
    | Nat.succ j =>
        have hj : j < ts.length := by omega
        have hres := rateRun_window_get ts 1 t0 hw j hj
        have hcons : (rateRun (t0 :: ts) none).1 = true :: (rateRun ts (some ⟨1, t0⟩)).1 := by
          rw [rateRun]
          simp only [hfirst]
        rw [hcons, List.get?_cons_succ, hres]
        exact congrArg some (decide_eq_decide.mpr (by push_cast; omega))
  · simp [validateInputRate, hroll, maxInputRate]

/-- C4 witness: with 121 calls at time 0, the 120th call is accepted, the
121st is rejected, and a later call 2000 ms after the window start is
accepted again with the counter restarted. -/
theorem c4_input_rate_limit_witness :
    (∀ t ∈ List.replicate 120 (0 : ℤ), t - 0 ≤ 1000) ∧
    (1000 < (2000 : ℤ) - 0) ∧
    (rateRun ((0 : ℤ) :: List.replicate 120 0) none).1.get? 119 = some true ∧
    (rateRun ((0 : ℤ) :: List.replicate 120 0) none).1.get? 120 = some false ∧
    validateInputRate 2000 (some ⟨55, 0⟩) = (true, ⟨1, 2000⟩) :=
  ⟨by simp, by norm_num,
   by simpa using
     (c4_input_rate_limit 0 (List.replicate 120 0) (by simp) 119 (by simp) 55 2000 (by norm_num)).1,
   by simpa using
     (c4_input_rate_limit 0 (List.replicate 120 0) (by simp) 120 (by simp) 55 2000 (by norm_num)).1,
   (c4_input_rate_limit 0 (List.replicate 120 0) (by simp) 0 (by simp) 55 2000 (by norm_num)).2⟩

/-- C8 counterexample: `encodeUintAngle` does NOT compute
`floor(((angle/π + 1)/2) * 255)` for every input angle: at `angle = 3π` the
plain floor is 510, but the function's `& 0xFF` mask reduces it to 254. -/
theorem c8_angle_quantization_counterexample :
    encodeUintAngle (3 * Real.pi) ≠ ⌊(((3 * Real.pi) / Real.pi + 1) / 2) * 255⌋ := by
  have h : ((3 * Real.pi) / Real.pi + 1) / 2 * 255 = 510 := by
    field_simp
    ring
  rw [encodeUintAngle, h]
  norm_num

/-- C8 amended: `encodeUintAngle` computes
`floor(((angle/π + 1)/2) * 255) & 0xFF`; for every angle in `[-π, π]` (the
range of `atan2`) the mask is the identity, so there it equals the plain
floor formula and is a single byte in `[0, 255]`. -/
theorem c8_angle_quantization_amended (angle : ℝ)
    (h1 : -Real.pi ≤ angle) (h2 : angle ≤ Real.pi) :
    encodeUintAngle angle = ⌊((angle / Real.pi + 1) / 2) * 255⌋ ∧
    0 ≤ encodeUintAngle angle ∧ encodeUintAngle angle ≤ 255 := by
  have hpi := Real.pi_pos
  have hlo : (-1 : ℝ) ≤ angle / Real.pi := by
    rw [le_div_iff₀ hpi]; linarith
  have hhi : angle / Real.pi ≤ 1 := by
    rw [div_le_one hpi]; linarith
  have hy0 : (0 : ℝ) ≤ ((angle / Real.pi + 1) / 2) * 255 := by nlinarith
  have hy1 : ((angle / Real.pi + 1) / 2) * 255 ≤ 255 := by nlinarith
  have hf0 : (0 : ℤ) ≤ ⌊((angle / Real.pi + 1) / 2) * 255⌋ := Int.floor_nonneg.mpr hy0
  have hf1 : ⌊((angle / Real.pi + 1) / 2) * 255⌋ ≤ 255 := by
    have := Int.floor_le_floor hy1
    simpa using this
  have hmod : ⌊((angle / Real.pi + 1) / 2) * 255⌋ % 256 = ⌊((angle / Real.pi + 1) / 2) * 255⌋ :=
    Int.emod_eq_of_lt hf0 (by omega)
  refine ⟨by rw [encodeUintAngle, hmod], ?_, ?_⟩ <;> rw [encodeUintAngle, hmod]
  · exact hf0
  · exact hf1

/-- C8 witness: the amended statement instantiated at `angle = 0` (inside
`[-π, π]`). -/
theorem c8_angle_quantization_witness :
    (-Real.pi ≤ (0 : ℝ)) ∧ ((0 : ℝ) ≤ Real.pi) ∧
    (encodeUintAngle 0 = ⌊(((0 : ℝ) / Real.pi + 1) / 2) * 255⌋ ∧
     0 ≤ encodeUintAngle 0 ∧ encodeUintAngle 0 ≤ 255) :=
  ⟨neg_nonpos.mpr Real.pi_pos.le, Real.pi_pos.le,
   c8_angle_quantization_amended 0 (neg_nonpos.mpr Real.pi_pos.le) Real.pi_pos.le⟩

/-- When the running index differs from the break point, `chainStep` is the
pure chain-follow step. -/
theorem chainStep_ne (size dt : ℝ) (bp i : ℕ) (prev part : NarwhalePart) (h : i ≠ bp) :
    chainStep size dt bp i prev part = chainStepFollow size prev part := by
  rw [chainStep, chainStepFollow, if_pos h]

/-- With break point 11 and indices that never reach 11, the sequential
chain update never takes the free-body branch. -/
theorem chainFold_eq_follow (size dt : ℝ) (rest : List NarwhalePart) (prev : NarwhalePart)
    (i : ℕ) (hle : i + rest.length ≤ 11) :
    chainFold size dt 11 prev i rest = chainFoldFollow size prev rest := by
  induction rest generalizing prev i with
  | nil => rfl
  | cons part tail ih =>
      have hi : i ≠ 11 := by
        have := hle
        simp only [List.length_cons] at this
        omega
      rw [chainFold, chainFoldFollow]
      rw [chainStep_ne size dt 11 i prev part hi]
      rw [ih (chainStepFollow size prev part) (i + 1) (by simp only [List.length_cons] at hle; omega)]

/-- With break point 11 and indices that never reach 11, the per-segment
encoder writes exactly one quantized-angle byte for every segment. -/
theorem encodeSegments_eq_map (f32 : ℝ → List ℕ) (tail : List NarwhalePart) (i : ℕ)
    (hle : i + tail.length ≤ 11) :
    encodeSegments f32 11 i tail
      = tail.map (fun part => (encodeUintAngle part.rot).toNat) := by
  induction tail generalizing i with
  | nil => rfl
  | cons part rest ih =>
      have hi : i ≠ 11 := by
        simp only [List.length_cons] at hle
        omega
      rw [encodeSegments, List.map_cons]
      rw [if_pos hi, ih (i + 1) (by simp only [List.length_cons] at hle; omega)]
      rfl

/-- C1 counterexample: the chain's break index is 11, not 10, and since the
11 segments occupy indices 0–10 the free-body branch is dead: the FISH
record's trailing-segment section of a fresh player is 10 one-byte quantized
angles (10 bytes total), not the 9 angle bytes plus one 16-byte f32 segment
(25 bytes) that the claim implies. -/
theorem c1_break_index_counterexample :
    pW.breakPoint ≠ 10 ∧
    (encodeSegments f32stub pW.breakPoint 1 pW.parts.tail).length = 10 := by
  constructor
  · show (11 : ℕ) ≠ 10
    decide
  · have hbp : pW.breakPoint = 11 := rfl
    have htail : pW.parts.tail.length = 10 := rfl
    rw [hbp, encodeSegments_eq_map f32stub pW.parts.tail 1 (by rw [htail]),
       List.length_map, htail]

/-- C1 amended: the break index is 11 for every player (the constructor
default), which never matches a trailing-segment index of the 11-part
chain; so `updateParts` chain-follows every non-head segment (it equals the
variant with the free-body branch removed) and the FISH record encodes
every trailing segment as one quantized-angle byte. -/
theorem c1_break_index_amended (dt : ℝ) (f32 : ℝ → List ℕ) (p : Player)
    (hbp : p.breakPoint = 11) (hlen : p.parts.length = 11) :
    updateParts dt p = updatePartsFollow dt p ∧
    encodeSegments f32 p.breakPoint 1 p.parts.tail
      = p.parts.tail.map (fun part => (encodeUintAngle part.rot).toNat) ∧
    (encodeSegments f32 p.breakPoint 1 p.parts.tail).length = p.parts.length - 1 := by
  have htail : p.parts.tail.length = p.parts.length - 1 := by
    cases p.parts <;> simp
  have hseg : encodeSegments f32 p.breakPoint 1 p.parts.tail
      = p.parts.tail.map (fun part => (encodeUintAngle part.rot).toNat) := by
    rw [hbp]
    exact encodeSegments_eq_map f32 p.parts.tail 1 (by omega)
  refine ⟨?_, hseg, by rw [hseg, List.length_map, htail]⟩
  rw [updateParts.eq_def, updatePartsFollow.eq_def]
  rcases hp : p.parts with _ | ⟨hd, rest⟩
  · rfl
  · have hrest : rest.length = 10 := by
      have := hlen
      rw [hp] at this
      simpa using this
    simp only []
    rw [hbp]
    rw [chainFold_eq_follow p.size dt rest _ 1 (by omega)]

/-- C1 witness: the amended statement instantiated at the fresh player
(break point 11, 11 chain segments). -/
theorem c1_break_index_witness :
    pW.breakPoint = 11 ∧ pW.parts.length = 11 ∧
    (updateParts 1 pW = updatePartsFollow 1 pW ∧
     encodeSegments f32stub pW.breakPoint 1 pW.parts.tail
       = pW.parts.tail.map (fun part => (encodeUintAngle part.rot).toNat) ∧
     (encodeSegments f32stub pW.breakPoint 1 pW.parts.tail).length = pW.parts.length - 1) :=
  ⟨rfl, rfl, c1_break_index_amended 1 f32stub pW rfl rfl⟩

/-- C2 counterexample: two runs of zero ticks from the same starting player
(and the same room state), encoded at wall-clock values 0 and 1, produce
different SET_ELEMENTS bytes: the header embeds `Date.now() & 0xFFFF`, so
independent runs are not bit-identical. -/
theorem c2_determinism_counterexample :
    encodeSetElements f32stub 0 { players := [mkPlayer 7 [65] 0 0 0 0], foods := [] }
      ≠ encodeSetElements f32stub 1 { players := [mkPlayer 7 [65] 0 0 0 0], foods := [] } := by
  have h0 : encodeSetElements f32stub 0 { players := [mkPlayer 7 [65] 0 0 0 0], foods := [] }
      = [48, 0, 0, 0] := by
    rw [encodeSetElements]
    simp [mkPlayer, u16le]
  have h1 : encodeSetElements f32stub 1 { players := [mkPlayer 7 [65] 0 0 0 0], foods := [] }
      = [48, 1, 0, 0] := by
    rw [encodeSetElements]
    simp [mkPlayer, u16le]
  rw [h0, h1]
  decide

/-- C2 amended: the encoder is a pure function of the wall-clock reading and
the room state, and only bytes 1–2 (the `Date.now() & 0xFFFF` little-endian
timestamp) depend on the wall clock: two runs with identical state agree on
byte 0 and on every byte from offset 3 on, and are bit-identical exactly
when their 16-bit timestamps coincide. -/
theorem c2_determinism_amended (f32 : ℝ → List ℕ) (room : Room) (now1 now2 : ℕ) :
    (encodeSetElements f32 now1 room).take 1 = (encodeSetElements f32 now2 room).take 1 ∧
    (encodeSetElements f32 now1 room).drop 3 = (encodeSetElements f32 now2 room).drop 3 ∧
    (encodeSetElements f32 now1 room).get? 1 = some (now1 % 65536 % 256) ∧
    (encodeSetElements f32 now1 room).get? 2 = some (now1 % 65536 / 256 % 256) := by
  refine ⟨?_, ?_, ?_, ?_⟩ <;>
    simp [encodeSetElements, u16le]

/-- C9: the packed team/level byte of a FISH record is 255 for every player
of team −1 regardless of level (the sign-extended team value sets all eight
low bits, so the level field is unrecoverable), while for team 1 it is
`1 | ((level & 0x1F) << 3)`. -/
theorem c9_team_byte_saturation (p : Player) :
    (p.team = -1 → teamLevelByte p.team ⌊p.level⌋ = 255) ∧
    (p.team = 1 → teamLevelByte p.team ⌊p.level⌋ = Int.lor 1 ((⌊p.level⌋ % 32) * 8)) := by
  constructor
  · intro h
    rw [h, teamLevelByte]
    have h1 : ((-1 : ℤ) % 256) = 255 := by decide
    rw [h1]
    exact lor255_eq _ (Int.emod_nonneg _ (by norm_num)) (Int.emod_lt_of_pos _ (by norm_num))
  · intro h
    rw [h, teamLevelByte]
    norm_num

/-- C9 witness: the team byte saturates to 255 for a team −1 player and is
the packed byte for a team 1 player. -/
theorem c9_team_byte_saturation_witness :
    (({ pW with team := -1 } : Player).team = -1 ∧
     teamLevelByte ({ pW with team := -1 } : Player).team
       ⌊({ pW with team := -1 } : Player).level⌋ = 255) ∧
    (({ pW2 with team := 1 } : Player).team = 1 ∧
     teamLevelByte ({ pW2 with team := 1 } : Player).team
       ⌊({ pW2 with team := 1 } : Player).level⌋
       = Int.lor 1 ((⌊({ pW2 with team := 1 } : Player).level⌋ % 32) * 8)) :=
  ⟨⟨rfl, (c9_team_byte_saturation { pW with team := -1 }).1 rfl⟩,
   ⟨rfl, (c9_team_byte_saturation { pW2 with team := 1 }).2 rfl⟩⟩

end Narwhale
